import Mathlib

/-!
# Verification of the geogram build-pipeline scripts and cache/mirror service contract

This development shallowly embeds, in Lean 4:

* the mirror-sync step of `src/esp32/scripts/post_build.py` (`post_build_action`,
  lines 37-61): byte-compare against the mirrored copy, conditional copy, and the
  `device.json` `modified_at` bump, modelled as an explicit event trace over a
  small filesystem state;
* the `strftime("%Y-%m-%dT%H:%M:%SZ")` timestamp format used there;
* the legacy-driver patching of `src/esp32/scripts/pre_build.py`
  (`patch_legacy_driver`), with a direct executable matcher for its conflict
  regular expression;
* the cache/mirror service contract (LocalAssetStore with LRU eviction,
  tile-request validation, PNG-signature validation, release-metadata snapshot,
  fetch coalescing) whose implementation is device-resident and not among the
  reviewed files: those parts are modelled from the specification text.

Strings are embedded as lists of character codes (`List Nat`) or `List Char`;
filesystem files as `Option` of their contents.
-/

namespace Geogram

/-! ## Mirror-sync step of `post_build.py`

The flasher directory holds `firmware.bin` (`bin`) and optionally `device.json`
(`desc`).  `writes` counts binary writes (`shutil.copy2` to the flasher dir),
`descUpdates` counts descriptor rewrites. -/

/-- The `device.json` contents: the `modified_at` field plus the remaining
JSON fields, which `post_build_action` preserves verbatim. -/
structure DeviceDescriptor where
  modified_at : List Nat
  extra : List (List Nat × List Nat)
  deriving DecidableEq, Repr

/-- Contents of the flasher directory: the mirrored binary (if present) and the
descriptor file (if present). -/
structure MirrorDir where
  bin : Option (List Nat)
  desc : Option DeviceDescriptor
  deriving DecidableEq, Repr

/-- Mirror-side filesystem state: the flasher directory (if it exists) plus
write counters observed by the sync. -/
structure MirrorFs where
  dir : Option MirrorDir
  writes : Nat
  descUpdates : Nat
  deriving DecidableEq, Repr

/-- One observable filesystem action of the mirror-sync step. -/
inductive SyncEvent where
  | writeBinary (b : List Nat)
  | updateDescriptor (t : List Nat)
  deriving DecidableEq, Repr

/-- Apply one sync action to the filesystem state.  A binary write lands the
candidate bytes and bumps `writes`; a descriptor update rewrites `modified_at`
(when `device.json` exists) and bumps `descUpdates`. -/
def applyEvent (s : MirrorFs) : SyncEvent → MirrorFs
  | SyncEvent.writeBinary b =>
    match s.dir with
    | some d => { s with dir := some { d with bin := some b }, writes := s.writes + 1 }
    | none => s
  | SyncEvent.updateDescriptor t =>
    match s.dir with
    | some d =>
      match d.desc with
      | some dd =>
        { s with dir := some { d with desc := some { dd with modified_at := t } },
                 descUpdates := s.descUpdates + 1 }
      | none => s
    | none => s

/-- The ordered list of filesystem actions the sync step performs
(`post_build.py` lines 43-59): nothing if the flasher dir is missing; nothing
if `firmware.bin` exists there with identical bytes (`filecmp.cmp`); otherwise
the copy, followed by the `modified_at` update when `device.json` exists. -/
def syncTrace (c now : List Nat) (s : MirrorFs) : List SyncEvent :=
  match s.dir with
  | none => []
  | some d =>
    if d.bin = some c then []
    else
      match d.desc with
      | some _ => [SyncEvent.writeBinary c, SyncEvent.updateDescriptor now]
      | none => [SyncEvent.writeBinary c]

/-- The mirror-sync step: run its action trace on the state. -/
def syncMirror (c now : List Nat) (s : MirrorFs) : MirrorFs :=
  (syncTrace c now s).foldl applyEvent s

/-- C1: the sync is a no-op when the mirrored copy already holds the candidate
bytes, and syncing the same bytes twice performs exactly one write and one
descriptor update — the second sync changes nothing. -/
theorem syncMirror_idempotent :
    (∀ (s : MirrorFs) (d : MirrorDir) (c now : List Nat),
      s.dir = some d → d.bin = some c → syncMirror c now s = s) ∧
    (∀ (s : MirrorFs) (d : MirrorDir) (dd : DeviceDescriptor) (c t1 t2 : List Nat),
      s.dir = some d → d.desc = some dd → d.bin ≠ some c →
      syncMirror c t2 (syncMirror c t1 s) = syncMirror c t1 s ∧
      (syncMirror c t1 s).writes = s.writes + 1 ∧
      (syncMirror c t1 s).descUpdates = s.descUpdates + 1) := by
  constructor
  · intro s d c now hdir hbin
    simp [syncMirror, syncTrace, hdir, hbin]
  · intro s d dd c t1 t2 hdir hdesc hbin
    have h1 : syncMirror c t1 s =
        { s with dir := some { d with bin := some c,
                                       desc := some { dd with modified_at := t1 } },
                 writes := s.writes + 1,
                 descUpdates := s.descUpdates + 1 } := by
      simp [syncMirror, syncTrace, hdir, hdesc, hbin, applyEvent]
    refine ⟨?_, ?_, ?_⟩
    · rw [h1]
      simp [syncMirror, syncTrace]
    · rw [h1]
    · rw [h1]

/-- Concrete instance of `syncMirror_idempotent`: a state whose mirrored binary
is `[1]`, descriptor timestamp `[0]`. -/
theorem syncMirror_idempotent_witness :
    (syncMirror [1] [9]
      (MirrorFs.mk (some (MirrorDir.mk (some [1]) (some (DeviceDescriptor.mk [0] [])))) 0 0) =
      MirrorFs.mk (some (MirrorDir.mk (some [1]) (some (DeviceDescriptor.mk [0] [])))) 0 0) ∧
    (syncMirror [2] [8] (syncMirror [2] [9]
        (MirrorFs.mk (some (MirrorDir.mk (some [1]) (some (DeviceDescriptor.mk [0] [])))) 0 0)) =
      syncMirror [2] [9]
        (MirrorFs.mk (some (MirrorDir.mk (some [1]) (some (DeviceDescriptor.mk [0] [])))) 0 0)) := by
  constructor
  · exact syncMirror_idempotent.1
      (MirrorFs.mk (some (MirrorDir.mk (some [1]) (some (DeviceDescriptor.mk [0] [])))) 0 0)
      (MirrorDir.mk (some [1]) (some (DeviceDescriptor.mk [0] []))) [1] [9] rfl rfl
  · exact (syncMirror_idempotent.2
      (MirrorFs.mk (some (MirrorDir.mk (some [1]) (some (DeviceDescriptor.mk [0] [])))) 0 0)
      (MirrorDir.mk (some [1]) (some (DeviceDescriptor.mk [0] [])))
      (DeviceDescriptor.mk [0] []) [2] [9] [8] rfl rfl (by decide)).1

/-- C2: in the sync's action trace, the binary write precedes the descriptor
update; consequently a poller that observes the state after any prefix of the
trace and sees the fresh timestamp already sees the candidate bytes. -/
theorem syncMirror_content_before_timestamp :
    (∀ (c now : List Nat) (s : MirrorFs) (j : Nat) (t : List Nat),
      (syncTrace c now s).get? j = some (SyncEvent.updateDescriptor t) →
      ∃ i, i < j ∧ (syncTrace c now s).get? i = some (SyncEvent.writeBinary c)) ∧
    (∀ (s : MirrorFs) (d : MirrorDir) (dd : DeviceDescriptor) (c now : List Nat) (k : Nat)
      (d' : MirrorDir) (dd' : DeviceDescriptor),
      s.dir = some d → d.desc = some dd → dd.modified_at ≠ now →
      (((syncTrace c now s).take k).foldl applyEvent s).dir = some d' →
      d'.desc = some dd' → dd'.modified_at = now →
      d'.bin = some c) := by
  constructor
  · intro c now s j t hj
    match hs : s.dir with
    | none =>
      have htr : syncTrace c now s = [] := by simp [syncTrace, hs]
      rw [htr] at hj
      simp at hj
    | some d =>
      by_cases hbin : d.bin = some c
      · have htr : syncTrace c now s = [] := by simp [syncTrace, hs, hbin]
        rw [htr] at hj
        simp at hj
      · match hd : d.desc with
        | none =>
          have htr : syncTrace c now s = [SyncEvent.writeBinary c] := by
            simp [syncTrace, hs, hbin, hd]
          rw [htr] at hj
          match j with
          | 0 => simp at hj
          | j + 1 => simp at hj
        | some dd =>
          have htr : syncTrace c now s =
              [SyncEvent.writeBinary c, SyncEvent.updateDescriptor now] := by
            simp [syncTrace, hs, hbin, hd]
          rw [htr] at hj
          match j with
          | 0 => simp at hj
          | 1 => exact ⟨0, by omega, by rw [htr]; rfl⟩
          | j + 2 => simp at hj
  · intro s d dd c now k d' dd' hdir hdesc hfresh hfold hdesc' hts
    by_cases hbin : d.bin = some c
    · have htr : syncTrace c now s = [] := by simp [syncTrace, hdir, hbin]
      rw [htr] at hfold
      simp at hfold
      rw [hfold] at hdir
      cases hdir
      rw [hdesc] at hdesc'
      cases hdesc'
      exact absurd hts hfresh
    · have htr : syncTrace c now s =
          [SyncEvent.writeBinary c, SyncEvent.updateDescriptor now] := by
        simp [syncTrace, hdir, hdesc, hbin]
      rw [htr] at hfold
      match k with
      | 0 =>
        simp at hfold
        rw [hfold] at hdir
        cases hdir
        rw [hdesc] at hdesc'
        cases hdesc'
        exact absurd hts hfresh
      | 1 =>
        simp [applyEvent, hdir] at hfold
        rw [← hfold]
      | k + 2 =>
        have htake : (([SyncEvent.writeBinary c, SyncEvent.updateDescriptor now] :
            List SyncEvent).take (k + 2)) =
            [SyncEvent.writeBinary c, SyncEvent.updateDescriptor now] := by
          rw [List.take_succ_cons, List.take_succ_cons, List.take_nil]
        rw [htake] at hfold
        simp [applyEvent, hdir, hdesc] at hfold
        rw [← hfold]

/-- Concrete instance of `syncMirror_content_before_timestamp`: the trace for a
changed binary with a present descriptor, at trace index 1 and prefix length 2. -/
theorem syncMirror_content_before_timestamp_witness :
    (∃ i, i < 1 ∧
      (syncTrace [2] [9]
        (MirrorFs.mk (some (MirrorDir.mk (some [1]) (some (DeviceDescriptor.mk [0] [])))) 0 0)).get? i =
        some (SyncEvent.writeBinary [2])) ∧
    (MirrorDir.mk (some [2]) (some (DeviceDescriptor.mk [9] []))).bin = some [2] := by
  constructor
  · exact syncMirror_content_before_timestamp.1 [2] [9]
      (MirrorFs.mk (some (MirrorDir.mk (some [1]) (some (DeviceDescriptor.mk [0] [])))) 0 0)
      1 [9] rfl
  · exact syncMirror_content_before_timestamp.2
      (MirrorFs.mk (some (MirrorDir.mk (some [1]) (some (DeviceDescriptor.mk [0] [])))) 0 0)
      (MirrorDir.mk (some [1]) (some (DeviceDescriptor.mk [0] [])))
      (DeviceDescriptor.mk [0] []) [2] [9] 2
      (MirrorDir.mk (some [2]) (some (DeviceDescriptor.mk [9] [])))
      (DeviceDescriptor.mk [9] []) rfl rfl (by decide) rfl rfl rfl

/-- C10: when the binary differs but no `device.json` exists, the sync replaces
the binary yet performs no descriptor update and never creates the descriptor. -/
theorem syncMirror_no_descriptor :
    ∀ (s : MirrorFs) (d : MirrorDir) (c now : List Nat),
      s.dir = some d → d.desc = none → d.bin ≠ some c →
      (syncMirror c now s).dir = some (MirrorDir.mk (some c) none) ∧
      (syncMirror c now s).writes = s.writes + 1 ∧
      (syncMirror c now s).descUpdates = s.descUpdates := by
  intro s d c now hdir hdesc hbin
  simp [syncMirror, syncTrace, hdir, hdesc, hbin, applyEvent]

/-- Concrete instance of `syncMirror_no_descriptor`. -/
theorem syncMirror_no_descriptor_witness :
    (syncMirror [2] [9] (MirrorFs.mk (some (MirrorDir.mk (some [1]) none)) 3 4)).dir =
      some (MirrorDir.mk (some [2]) none) ∧
    (syncMirror [2] [9] (MirrorFs.mk (some (MirrorDir.mk (some [1]) none)) 3 4)).writes = 4 ∧
    (syncMirror [2] [9] (MirrorFs.mk (some (MirrorDir.mk (some [1]) none)) 3 4)).descUpdates = 4 :=
  syncMirror_no_descriptor (MirrorFs.mk (some (MirrorDir.mk (some [1]) none)) 3 4)
    (MirrorDir.mk (some [1]) none) [2] [9] rfl rfl (by decide)

/-! ## The `modified_at` timestamp format

`post_build.py` line 54 writes
`datetime.now(timezone.utc).strftime("%Y-%m-%dT%H:%M:%SZ")`.  The format is
embedded over character codes: each `%`-field is the zero-padded decimal of the
corresponding UTC time component. -/

/-- Code of the decimal digit character for `n % 10` (`48` is `'0'`). -/
def digitCode (n : Nat) : Nat := 48 + n % 10

/-- Two-digit zero-padded decimal (`%m`, `%d`, `%H`, `%M`, `%S`). -/
def pad2 (n : Nat) : List Nat := [digitCode (n / 10), digitCode n]

/-- Four-digit zero-padded decimal (`%Y`, with `datetime` years `≤ 9999`). -/
def pad4 (n : Nat) : List Nat :=
  [digitCode (n / 1000), digitCode (n / 100), digitCode (n / 10), digitCode n]

/-- The `strftime("%Y-%m-%dT%H:%M:%SZ")` output for UTC components
`(y, mo, dy, h, mi, sec)`; `45` is `'-'`, `84` is `'T'`, `58` is `':'`,
`90` is `'Z'`. -/
def formatUTC (y mo dy h mi sec : Nat) : List Nat :=
  pad4 y ++ [45] ++ pad2 mo ++ [45] ++ pad2 dy ++ [84] ++
    pad2 h ++ [58] ++ pad2 mi ++ [58] ++ pad2 sec ++ [90]

/-- Whether a character code is a decimal digit. -/
def isDigitCode (n : Nat) : Bool := 48 ≤ n && n ≤ 57

/-- Whether a code sequence is a second-precision ISO-8601 UTC timestamp with
a `Z` suffix, i.e. matches `%Y-%m-%dT%H:%M:%SZ`. -/
def isIso8601Z (l : List Nat) : Bool :=
  match l with
  | [y1, y2, y3, y4, s1, m1, m2, s2, d1, d2, s3, h1, h2, s4, i1, i2, s5, c1, c2, s6] =>
    isDigitCode y1 && isDigitCode y2 && isDigitCode y3 && isDigitCode y4 &&
    s1 = 45 && isDigitCode m1 && isDigitCode m2 && s2 = 45 &&
    isDigitCode d1 && isDigitCode d2 && s3 = 84 &&
    isDigitCode h1 && isDigitCode h2 && s4 = 58 &&
    isDigitCode i1 && isDigitCode i2 && s5 = 58 &&
    isDigitCode c1 && isDigitCode c2 && s6 = 90
  | _ => false

/-- Decode an ISO-8601 `Z`-suffixed timestamp back into its six components. -/
def decodeIso (l : List Nat) : Option (Nat × Nat × Nat × Nat × Nat × Nat) :=
  if isIso8601Z l then
    match l with
    | [y1, y2, y3, y4, _, m1, m2, _, d1, d2, _, h1, h2, _, i1, i2, _, c1, c2, _] =>
      some ((y1 - 48) * 1000 + (y2 - 48) * 100 + (y3 - 48) * 10 + (y4 - 48),
            (m1 - 48) * 10 + (m2 - 48),
            (d1 - 48) * 10 + (d2 - 48),
            (h1 - 48) * 10 + (h2 - 48),
            (i1 - 48) * 10 + (i2 - 48),
            (c1 - 48) * 10 + (c2 - 48))
    | _ => none
  else none

/-- C8: the descriptor timestamp written by the sync is exactly the formatted
current UTC time, the format always matches `%Y-%m-%dT%H:%M:%SZ`, and for
`datetime`-valid components the string decodes back to the components
(second precision, no information lost). -/
theorem syncMirror_timestamp_format :
    (∀ (y mo dy h mi sec : Nat), isIso8601Z (formatUTC y mo dy h mi sec) = true) ∧
    (∀ (y mo dy h mi sec : Nat), y ≤ 9999 → mo ≤ 99 → dy ≤ 99 → h ≤ 99 → mi ≤ 99 → sec ≤ 99 →
      decodeIso (formatUTC y mo dy h mi sec) = some (y, mo, dy, h, mi, sec)) ∧
    (∀ (s : MirrorFs) (d : MirrorDir) (dd : DeviceDescriptor) (c : List Nat)
      (y mo dy h mi sec : Nat),
      s.dir = some d → d.desc = some dd → d.bin ≠ some c →
      (syncMirror c (formatUTC y mo dy h mi sec) s).dir =
        some (MirrorDir.mk (some c)
          (some (DeviceDescriptor.mk (formatUTC y mo dy h mi sec) dd.extra)))) := by
  have hdig : ∀ n, isDigitCode (digitCode n) = true := by
    intro n
    have : n % 10 < 10 := Nat.mod_lt _ (by omega)
    simp [isDigitCode, digitCode]
    omega
  refine ⟨?_, ?_, ?_⟩
  · intro y mo dy h mi sec
    simp [formatUTC, pad4, pad2, isIso8601Z, hdig]
  · intro y mo dy h mi sec hy hmo hdy hh hmi hsec
    have hfmt : isIso8601Z (formatUTC y mo dy h mi sec) = true := by
      simp [formatUTC, pad4, pad2, isIso8601Z, hdig]
    simp only [formatUTC, pad4, pad2, List.cons_append, List.nil_append] at hfmt ⊢
    rw [decodeIso]
    rw [hfmt]
    simp only [if_true, digitCode, Option.some.injEq, Prod.mk.injEq]
    omega
  · intro s d dd c y mo dy h mi sec hdir hdesc hbin
    simp [syncMirror, syncTrace, hdir, hdesc, hbin, applyEvent]

/-- Concrete instance of `syncMirror_timestamp_format` at
2026-10-12T00:00:00Z. -/
theorem syncMirror_timestamp_format_witness :
    decodeIso (formatUTC 2026 10 12 0 0 0) = some (2026, 10, 12, 0, 0, 0) ∧
    (syncMirror [2] (formatUTC 2026 10 12 0 0 0)
        (MirrorFs.mk (some (MirrorDir.mk (some [1]) (some (DeviceDescriptor.mk [0] [])))) 0 0)).dir =
      some (MirrorDir.mk (some [2]) (some (DeviceDescriptor.mk (formatUTC 2026 10 12 0 0 0) []))) := by
  constructor
  · exact syncMirror_timestamp_format.2.1 2026 10 12 0 0 0 (by omega) (by omega) (by omega)
      (by omega) (by omega) (by omega)
  · exact syncMirror_timestamp_format.2.2
      (MirrorFs.mk (some (MirrorDir.mk (some [1]) (some (DeviceDescriptor.mk [0] [])))) 0 0)
      (MirrorDir.mk (some [1]) (some (DeviceDescriptor.mk [0] [])))
      (DeviceDescriptor.mk [0] []) [2] 2026 10 12 0 0 0 rfl rfl (by decide)

/-! ## Legacy-driver patching in `pre_build.py`

`patch_legacy_driver(filepath, driver_name)` reads the file, returns `True` at
once if it already contains `GEOGRAM_PATCHED`, and otherwise rewrites every
occurrence of the conflict-abort pattern
`(\s+)ESP_EARLY_LOGE\(([^,]+),\s*"CONFLICT[^"]*"\);\s*abort\(\);`
with a warning line.  The regular expression is embedded as a direct
executable matcher: each greedy piece (`\s+`, `[^,]+`, `[^"]*`, `\s*`) is
followed by a literal its character class cannot match, so maximal munch
coincides with the backtracking semantics of `re.sub`. -/

/-- ASCII whitespace, the `\s` class as it occurs in C source files. -/
def isSpaceCh (ch : Char) : Bool :=
  ch = ' ' || ch = '\t' || ch = '\n' || ch = '\r' || ch = '\x0b' || ch = '\x0c'

/-- Strip an exact literal prefix, returning the remainder on success. -/
def stripLit : List Char → List Char → Option (List Char)
  | [], l => some l
  | _ :: _, [] => none
  | p :: ps, ch :: cs => if ch = p then stripLit ps cs else none

/-- Try to match the conflict-abort pattern at the head of `l`; on success
return the captured indentation (group 1), the captured tag (group 2), and the
input remaining after the match. -/
def matchAt (l : List Char) : Option (List Char × List Char × List Char) :=
  let ws := l.takeWhile isSpaceCh
  if ws.isEmpty then none
  else
    match stripLit ("ESP_EARLY_LOGE(".data) (l.dropWhile isSpaceCh) with
    | none => none
    | some r2 =>
      let tag := r2.takeWhile (fun ch => ch ≠ ',')
      if tag.isEmpty then none
      else
        match stripLit (",".data) (r2.dropWhile (fun ch => ch ≠ ',')) with
        | none => none
        | some r3 =>
          match stripLit ("\"CONFLICT".data) (r3.dropWhile isSpaceCh) with
          | none => none
          | some r5 =>
            match stripLit ("\");".data) (r5.dropWhile (fun ch => ch ≠ '"')) with
            | none => none
            | some r7 =>
              match stripLit ("abort();".data) (r7.dropWhile isSpaceCh) with
              | none => none
              | some r9 => some (ws, tag, r9)

/-- The marker whose presence means a file is already patched. -/
def marker : List Char := "GEOGRAM_PATCHED".data

/-- The replacement text, the Python f-string of `pre_build.py` line 28 with
`indent` (group 1), `tag` (group 2) and `driver_name` spliced in; the literal
segments are written around the two `GEOGRAM_PATCHED` occurrences. -/
def replacementFor (ws tag driver : List Char) : List Char :=
  ws ++ ("// ".data) ++ marker ++
    (": Conflict check disabled for ESP-Mesh-Lite compatibility\n".data) ++
    ws ++ ("ESP_EARLY_LOGW(".data) ++ tag ++ (", \"".data) ++ marker ++
    (": ".data) ++ driver ++ (" driver coexistence allowed\");".data)

/-- `re.sub` of the conflict pattern: scan left to right, replace each
leftmost non-overlapping match, continue after it.  `fuel` bounds the scan;
callers pass the input length, which suffices because every match consumes at
least the one whitespace character `\s+` requires. -/
def geogramSub (driver : List Char) : Nat → List Char → List Char
  | 0, l => l
  | _ + 1, [] => []
  | fuel + 1, ch :: cs =>
    match matchAt (ch :: cs) with
    | some (ws, tag, rest) => replacementFor ws tag driver ++ geogramSub driver fuel rest
    | none => ch :: geogramSub driver fuel cs

/-- Whether the conflict pattern matches anywhere in the input. -/
def hasMatch : List Char → Bool
  | [] => false
  | ch :: cs => (matchAt (ch :: cs)).isSome || hasMatch cs

/-- Python's substring test `pat in l`. -/
def containsSub (pat : List Char) : List Char → Bool
  | [] => pat.isPrefixOf []
  | ch :: cs => pat.isPrefixOf (ch :: cs) || containsSub pat cs

/-- `patch_legacy_driver` over an in-memory file (`none` = file absent):
returns the Python result and the file contents afterwards. -/
def patch_legacy_driver (driver : List Char) (file : Option (List Char)) :
    Bool × Option (List Char) :=
  match file with
  | none => (false, none)
  | some content =>
    if containsSub marker content then (true, some content)
    else
      let newContent := geogramSub driver content.length content
      if newContent = content then (false, some content)
      else (true, some newContent)

theorem isPrefixOf_append_left {pat l : List Char} (y : List Char)
    (h : pat.isPrefixOf l = true) : pat.isPrefixOf (l ++ y) = true := by
  rw [List.isPrefixOf_iff_prefix] at h ⊢
  exact h.trans (List.prefix_append l y)

theorem containsSub_of_isPrefixOf {pat l : List Char} (h : pat.isPrefixOf l = true) :
    containsSub pat l = true := by
  match l with
  | [] => exact h
  | ch :: cs => rw [containsSub, h, Bool.true_or]

theorem containsSub_append_right {pat y : List Char} (x : List Char)
    (h : containsSub pat y = true) : containsSub pat (x ++ y) = true := by
  induction x with
  | nil => exact h
  | cons ch cs ih =>
    rw [List.cons_append, containsSub, ih, Bool.or_true]

theorem containsSub_append_left {pat : List Char} (y : List Char) :
    ∀ {x : List Char}, containsSub pat x = true → containsSub pat (x ++ y) = true := by
  intro x
  induction x with
  | nil =>
    intro h
    have hp : pat = [] := by
      match pat with
      | [] => rfl
      | _ :: _ => exact absurd h (by simp [containsSub, List.isPrefixOf])
    subst hp
    exact containsSub_of_isPrefixOf (by simp [List.isPrefixOf])
  | cons ch cs ih =>
    intro h
    rw [containsSub] at h
    rw [List.cons_append, containsSub]
    rcases Bool.or_eq_true_iff.mp h with h1 | h2
    · have hp := isPrefixOf_append_left y h1
      rw [List.cons_append] at hp
      rw [hp, Bool.true_or]
    · rw [ih h2, Bool.or_true]

theorem containsSub_marker_replacement (ws tag driver : List Char) :
    containsSub marker (replacementFor ws tag driver) = true := by
  unfold replacementFor
  apply containsSub_append_left
  apply containsSub_append_left
  apply containsSub_append_left
  apply containsSub_append_left
  apply containsSub_append_left
  apply containsSub_append_left
  apply containsSub_append_left
  apply containsSub_append_left
  apply containsSub_append_left
  apply containsSub_append_right
  exact containsSub_of_isPrefixOf (List.isPrefixOf_iff_prefix.mpr (List.prefix_refl _))

theorem geogramSub_of_not_hasMatch (driver : List Char) :
    ∀ (fuel : Nat) (l : List Char), hasMatch l = false → geogramSub driver fuel l = l := by
  intro fuel
  induction fuel with
  | zero => intro l _; rfl
  | succ n ih =>
    intro l h
    match l with
    | [] => rfl
    | ch :: cs =>
      rw [hasMatch, Bool.or_eq_false_iff] at h
      have hm : matchAt (ch :: cs) = none := Option.not_isSome_iff_eq_none.mp (by
        rw [h.1]; exact Bool.false_ne_true)
      rw [geogramSub, hm, ih cs h.2]

theorem geogramSub_changed_contains_marker (driver : List Char) :
    ∀ (fuel : Nat) (l : List Char), geogramSub driver fuel l ≠ l →
      containsSub marker (geogramSub driver fuel l) = true := by
  intro fuel
  induction fuel with
  | zero => intro l h; exact absurd rfl h
  | succ n ih =>
    intro l h
    match l with
    | [] => exact absurd rfl h
    | ch :: cs =>
      rw [geogramSub] at h ⊢
      match hm : matchAt (ch :: cs) with
      | some (ws, tag, rest) =>
        exact containsSub_append_left _ (containsSub_marker_replacement ws tag driver)
      | none =>
        rw [hm] at h
        have h' : ch :: geogramSub driver n cs ≠ ch :: cs := h
        have hne : geogramSub driver n cs ≠ cs := fun he => h' (by rw [he])
        show containsSub marker (ch :: geogramSub driver n cs) = true
        rw [containsSub, ih cs hne, Bool.or_true]

/-- C9: `patch_legacy_driver` is idempotent.  A file already containing
`GEOGRAM_PATCHED` is reported patched and left untouched; a file the conflict
pattern does not match is left byte-identical; and a second application never
changes the file produced by the first, because a rewritten file always
contains the marker. -/
theorem patch_legacy_driver_idempotent :
    (∀ (driver content : List Char), containsSub marker content = true →
      patch_legacy_driver driver (some content) = (true, some content)) ∧
    (∀ (driver content : List Char), hasMatch content = false →
      (patch_legacy_driver driver (some content)).2 = some content) ∧
    (∀ (driver : List Char) (file : Option (List Char)),
      (patch_legacy_driver driver (patch_legacy_driver driver file).2).2 =
        (patch_legacy_driver driver file).2) := by
  refine ⟨?_, ?_, ?_⟩
  · intro driver content h
    rw [patch_legacy_driver, if_pos h]
  · intro driver content h
    rw [patch_legacy_driver]
    by_cases hc : containsSub marker content = true
    · rw [if_pos hc]
    · rw [if_neg hc, geogramSub_of_not_hasMatch driver content.length content h, if_pos rfl]
  · intro driver file
    match file with
    | none => rfl
    | some content =>
      by_cases hc : containsSub marker content = true
      · rw [patch_legacy_driver, if_pos hc, patch_legacy_driver, if_pos hc]
      · by_cases he : geogramSub driver content.length content = content
        · rw [patch_legacy_driver, if_neg hc, if_pos he, patch_legacy_driver, if_neg hc,
            if_pos he]
        · have hmk : containsSub marker (geogramSub driver content.length content) = true :=
            geogramSub_changed_contains_marker driver content.length content he
          rw [patch_legacy_driver, if_neg hc, if_neg he, patch_legacy_driver, if_pos hmk]

/-- Concrete instance of `patch_legacy_driver_idempotent`: a file already
containing the marker, and a file the pattern does not match. -/
theorem patch_legacy_driver_idempotent_witness :
    patch_legacy_driver ("i2s".data) (some ("// GEOGRAM_PATCHED ok\n".data)) =
      (true, some ("// GEOGRAM_PATCHED ok\n".data)) ∧
    (patch_legacy_driver ("i2s".data) (some ("int main;\n".data))).2 =
      some ("int main;\n".data) := by
  constructor
  · exact patch_legacy_driver_idempotent.1 ("i2s".data) ("// GEOGRAM_PATCHED ok\n".data)
      (by decide)
  · exact patch_legacy_driver_idempotent.2.1 ("i2s".data) ("int main;\n".data) (by decide)

/-! ## LocalAssetStore (spec-modelled)

The store implementation is device-resident and not among the reviewed files;
the following is modelled from the specification's words (section 4.1): keyed
entries with `sizeBytes` and `lastAccessAt`; after every `put`, while the
byte/count budget is exceeded, the entry with the least `lastAccessAt` is
evicted. -/

/-- Modelled from the spec: a `CacheEntry` of LocalAssetStore (the missing
on-device store), with its key, bytes and last-access stamp. -/
structure CEntry where
  key : List Nat
  bytes : List Nat
  lastAccessAt : Nat
  deriving DecidableEq, Repr

/-- Modelled from the spec: the store's configured budgets — `maxBytes`, and
`maxCount` when a count budget is configured. -/
structure StoreCfg where
  maxBytes : Nat
  maxCount : Option Nat
  deriving DecidableEq, Repr

/-- An entry's `sizeBytes`. -/
def entrySize (e : CEntry) : Nat := e.bytes.length

/-- `sizeBytes()` of the store: sum of `entry.sizeBytes` over all entries. -/
def storeSize (s : List CEntry) : Nat := (s.map entrySize).sum

/-- Whether the store exceeds its configured budget. -/
def overBudget (cfg : StoreCfg) (s : List CEntry) : Bool :=
  decide (cfg.maxBytes < storeSize s) ||
    match cfg.maxCount with
    | some m => decide (m < s.length)
    | none => false

/-- Remove one entry whose `lastAccessAt` is least: the first entry that is no
younger than everything after it. -/
def removeMin : List CEntry → List CEntry
  | [] => []
  | e :: es =>
    if es.all (fun x => e.lastAccessAt ≤ x.lastAccessAt) then es else e :: removeMin es

/-- Modelled from the spec: the eviction loop — while over budget, evict the
least-recently-accessed entry.  `fuel` bounds the loop; callers pass the entry
count, which suffices because each round removes an entry. -/
def evictLoop (cfg : StoreCfg) : Nat → List CEntry → List CEntry
  | 0, es => es
  | fuel + 1, es => if overBudget cfg es then evictLoop cfg fuel (removeMin es) else es

/-- Modelled from the spec: `put(key, bytes)` — overwrite any entry with the
same key, stamp the new entry with `now`, then evict until under budget. -/
def putStore (cfg : StoreCfg) (now : Nat) (key bytes : List Nat) (s : List CEntry) :
    List CEntry :=
  let base := s.filter (fun e => decide (e.key ≠ key)) ++ [CEntry.mk key bytes now]
  evictLoop cfg base.length base

theorem overBudget_nil (cfg : StoreCfg) : overBudget cfg [] = false := by
  unfold overBudget
  match cfg with
  | StoreCfg.mk b none => simp [storeSize]
  | StoreCfg.mk b (some m) => simp [storeSize]

theorem removeMin_length : ∀ {es : List CEntry}, es ≠ [] →
    (removeMin es).length + 1 = es.length := by
  intro es hne
  induction es with
  | nil => exact absurd rfl hne
  | cons e tl ih =>
    rw [removeMin]
    by_cases hall : tl.all (fun x => e.lastAccessAt ≤ x.lastAccessAt) = true
    · rw [if_pos hall]; rfl
    · rw [if_neg hall]
      have htl : tl ≠ [] := by
        intro h0
        subst h0
        exact hall rfl
      simp [List.length_cons, ← ih htl]

theorem removeMin_subset : ∀ {es : List CEntry} {x : CEntry},
    x ∈ removeMin es → x ∈ es := by
  intro es
  induction es with
  | nil => intro x h; exact absurd h (by simp [removeMin])
  | cons e tl ih =>
    intro x h
    rw [removeMin] at h
    by_cases hall : tl.all (fun y => e.lastAccessAt ≤ y.lastAccessAt) = true
    · rw [if_pos hall] at h
      exact List.mem_cons_of_mem e h
    · rw [if_neg hall] at h
      rcases List.mem_cons.mp h with h1 | h2
      · exact h1 ▸ List.mem_cons_self e tl
      · exact List.mem_cons_of_mem e (ih h2)

/-- The entry `removeMin` drops is a least-recently-accessed one: it is no
younger than any entry of the input list. -/
theorem removeMin_removes_min : ∀ {es : List CEntry} {x : CEntry},
    x ∈ es → x ∉ removeMin es → ∀ y ∈ es, x.lastAccessAt ≤ y.lastAccessAt := by
  intro es
  induction es with
  | nil => intro x hx; exact absurd hx (List.not_mem_nil x)
  | cons e tl ih =>
    intro x hx hnx y hy
    rw [removeMin] at hnx
    by_cases hall : tl.all (fun z => e.lastAccessAt ≤ z.lastAccessAt) = true
    · rw [if_pos hall] at hnx
      have hxe : x = e := by
        rcases List.mem_cons.mp hx with h1 | h2
        · exact h1
        · exact absurd h2 hnx
      subst hxe
      rcases List.mem_cons.mp hy with h1 | h2
      · rw [h1]
      · exact of_decide_eq_true (List.all_eq_true.mp hall y h2)
    · rw [if_neg hall] at hnx
      have hxtl : x ∈ tl := by
        rcases List.mem_cons.mp hx with h1 | h2
        · exact absurd (h1 ▸ List.mem_cons_self x (removeMin tl)) (h1 ▸ hnx)
        · exact h2
      have hnxtl : x ∉ removeMin tl := fun hc => hnx (List.mem_cons_of_mem e hc)
      rcases List.mem_cons.mp hy with h1 | h2
      · subst h1
        obtain ⟨z, hz, hzlt⟩ := by
          have hc := List.all_eq_true.not.mp hall
          push_neg at hc
          exact hc
        exact le_trans (ih hxtl hnxtl z hz) (le_of_not_le (by simpa using hzlt))
      · exact ih hxtl hnxtl y h2

theorem evictLoop_subset (cfg : StoreCfg) : ∀ (fuel : Nat) {es : List CEntry} {x : CEntry},
    x ∈ evictLoop cfg fuel es → x ∈ es := by
  intro fuel
  induction fuel with
  | zero => intro es x h; exact h
  | succ n ih =>
    intro es x h
    rw [evictLoop] at h
    by_cases hov : overBudget cfg es = true
    · rw [if_pos hov] at h
      exact removeMin_subset (ih h)
    · rw [if_neg hov] at h
      exact h

theorem evictLoop_not_over (cfg : StoreCfg) : ∀ (fuel : Nat) (es : List CEntry),
    es.length ≤ fuel → overBudget cfg (evictLoop cfg fuel es) = false := by
  intro fuel
  induction fuel with
  | zero =>
    intro es hlen
    have : es = [] := List.length_eq_zero.mp (Nat.le_zero.mp hlen)
    subst this
    exact overBudget_nil cfg
  | succ n ih =>
    intro es hlen
    rw [evictLoop]
    by_cases hov : overBudget cfg es = true
    · rw [if_pos hov]
      have hne : es ≠ [] := by
        intro h0
        subst h0
        rw [overBudget_nil] at hov
        exact Bool.false_ne_true hov
      have hrl := removeMin_length hne
      exact ih (removeMin es) (by omega)
    · rw [if_neg hov]
      exact Bool.not_eq_true _ |>.mp hov

/-- Entries evicted by the loop are all no younger than every surviving
entry: eviction proceeds in ascending `lastAccessAt` order. -/
theorem evictLoop_lru (cfg : StoreCfg) : ∀ (fuel : Nat) (es : List CEntry) (x y : CEntry),
    x ∈ es → x ∉ evictLoop cfg fuel es → y ∈ evictLoop cfg fuel es →
    x.lastAccessAt ≤ y.lastAccessAt := by
  intro fuel
  induction fuel with
  | zero => intro es x y hx hnx hy; exact absurd hx hnx
  | succ n ih =>
    intro es x y hx hnx hy
    rw [evictLoop] at hnx hy
    by_cases hov : overBudget cfg es = true
    · rw [if_pos hov] at hnx hy
      by_cases hxr : x ∈ removeMin es
      · exact ih (removeMin es) x y hxr hnx hy
      · exact removeMin_removes_min hx hxr y
          (removeMin_subset (evictLoop_subset cfg n hy))
    · rw [if_neg hov] at hnx hy
      exact absurd hx hnx

/-- C4: after every `put` (hence after any sequence of puts) the stored bytes
fit `maxBytes` and, when a count budget is configured, the entry count fits
`maxCount`; and any entry a `put` evicts is no younger than any entry it
keeps. -/
theorem localAssetStore_budget :
    (∀ (cfg : StoreCfg) (now : Nat) (key bytes : List Nat) (s : List CEntry),
      storeSize (putStore cfg now key bytes s) ≤ cfg.maxBytes) ∧
    (∀ (cfg : StoreCfg) (m now : Nat) (key bytes : List Nat) (s : List CEntry),
      cfg.maxCount = some m → (putStore cfg now key bytes s).length ≤ m) ∧
    (∀ (cfg : StoreCfg) (now : Nat) (key bytes : List Nat) (s : List CEntry) (x y : CEntry),
      x ∈ s.filter (fun e => decide (e.key ≠ key)) ++ [CEntry.mk key bytes now] →
      x ∉ putStore cfg now key bytes s → y ∈ putStore cfg now key bytes s →
      x.lastAccessAt ≤ y.lastAccessAt) := by
  have hno : ∀ (cfg : StoreCfg) (now : Nat) (key bytes : List Nat) (s : List CEntry),
      overBudget cfg (putStore cfg now key bytes s) = false := by
    intro cfg now key bytes s
    exact evictLoop_not_over cfg _ _ le_rfl
  refine ⟨?_, ?_, ?_⟩
  · intro cfg now key bytes s
    have h := hno cfg now key bytes s
    unfold overBudget at h
    rcases Bool.or_eq_false_iff.mp h with ⟨h1, _⟩
    simpa using h1
  · intro cfg m now key bytes s hm
    have h := hno cfg now key bytes s
    unfold overBudget at h
    rcases Bool.or_eq_false_iff.mp h with ⟨_, h2⟩
    rw [hm] at h2
    simpa using h2
  · intro cfg now key bytes s x y hx hnx hy
    exact evictLoop_lru cfg _ _ x y hx hnx hy

/-- Concrete instance of `localAssetStore_budget`: a 4-byte budget forces the
older entry out. -/
theorem localAssetStore_budget_witness :
    storeSize (putStore (StoreCfg.mk 4 (some 1)) 5 [1] [7, 7, 7] [CEntry.mk [0] [6, 6, 6] 2]) ≤ 4 ∧
    (putStore (StoreCfg.mk 4 (some 1)) 5 [1] [7, 7, 7] [CEntry.mk [0] [6, 6, 6] 2]).length ≤ 1 ∧
    (CEntry.mk [0] [6, 6, 6] 2).lastAccessAt ≤ (CEntry.mk [1] [7, 7, 7] 5).lastAccessAt := by
  refine ⟨?_, ?_, ?_⟩
  · exact localAssetStore_budget.1 (StoreCfg.mk 4 (some 1)) 5 [1] [7, 7, 7]
      [CEntry.mk [0] [6, 6, 6] 2]
  · exact localAssetStore_budget.2.1 (StoreCfg.mk 4 (some 1)) 1 5 [1] [7, 7, 7]
      [CEntry.mk [0] [6, 6, 6] 2] rfl
  · exact localAssetStore_budget.2.2 (StoreCfg.mk 4 (some 1)) 5 [1] [7, 7, 7]
      [CEntry.mk [0] [6, 6, 6] 2] (CEntry.mk [0] [6, 6, 6] 2) (CEntry.mk [1] [7, 7, 7] 5)
      (by decide) (by decide) (by decide)

/-! ## TileCacheService request validation (spec-modelled)

`GET /tiles/{z}/{x}/{y}.png`: the handler is device-resident and not among the
reviewed files; validation is modelled from the specification's words
(section 4.3 and the invalid-request cases of `test_tile_api.py`). -/

/-- ASCII decimal digit. -/
def isDigitCh (ch : Char) : Bool := 48 ≤ ch.toNat && ch.toNat ≤ 57

/-- Parse a non-empty all-digits segment as a natural number. -/
def parseNatSeg (l : List Char) : Option Nat :=
  if l.isEmpty then none
  else if l.all isDigitCh then some (l.foldl (fun acc ch => acc * 10 + (ch.toNat - 48)) 0)
  else none

/-- Parse an optionally negated integer segment. -/
def parseIntSeg : List Char → Option Int
  | [] => none
  | '-' :: rest => (parseNatSeg rest).map (fun n => -(n : Int))
  | l => (parseNatSeg l).map (fun n => (n : Int))

/-- Split the trailing `.png` off the final path segment. -/
def stripSuffixPng (l : List Char) : Option (List Char) :=
  if decide (4 ≤ l.length) && decide (l.drop (l.length - 4) = ".png".data) then
    some (l.take (l.length - 4))
  else none

/-- Modelled from the spec: parse the `{z}/{x}/{y}.png` path segments of a
tile request; `none` is a malformed path. -/
def parseTile (segs : List (List Char)) : Option (Int × Int × Int) :=
  match segs with
  | [zs, xs, ys] => do
    let ypart ← stripSuffixPng ys
    let z ← parseIntSeg zs
    let x ← parseIntSeg xs
    let y ← parseIntSeg ypart
    pure (z, x, y)
  | _ => none

/-- The fixed maximum zoom of the tile service. -/
def maxZoom : Nat := 19

/-- Result of tile-request validation. -/
inductive TileOutcome where
  | ok (z x y : Nat)
  | invalidRequest
  deriving DecidableEq, Repr

/-- Modelled from the spec: validate a tile request — the path must parse and
`z ∈ [0, maxZoom]`, `0 ≤ x < 2^z`, `0 ≤ y < 2^z` must hold. -/
def validateTile (segs : List (List Char)) : TileOutcome :=
  match parseTile segs with
  | none => TileOutcome.invalidRequest
  | some (z, x, y) =>
    if 0 ≤ z ∧ z ≤ (maxZoom : Int) ∧
        0 ≤ x ∧ x < ((2 ^ z.toNat : Nat) : Int) ∧
        0 ≤ y ∧ y < ((2 ^ z.toNat : Nat) : Int) then
      TileOutcome.ok z.toNat x.toNat y.toNat
    else TileOutcome.invalidRequest

/-- Modelled from the spec: HTTP status of a tile request — `400` when
validation fails, otherwise the status of the downstream cache/fetch path. -/
def tileStatus (segs : List (List Char)) (downstream : Nat) : Nat :=
  match validateTile segs with
  | TileOutcome.invalidRequest => 400
  | TileOutcome.ok _ _ _ => downstream

/-- C5: a tile request is served (HTTP 200) only when its coordinates
validate, validated coordinates satisfy `z ≤ 19` and `x, y < 2^z`, any
validation failure yields 400, and in particular zoom 20 and zoom -1 with
x = y = 0 yield 400. -/
theorem tile_request_validation :
    (∀ (segs : List (List Char)) (z x y : Nat),
      validateTile segs = TileOutcome.ok z x y →
      z ≤ maxZoom ∧ x < 2 ^ z ∧ y < 2 ^ z) ∧
    (∀ (segs : List (List Char)) (ds : Nat),
      tileStatus segs ds = 200 →
      ds = 200 ∧ ∃ z x y, validateTile segs = TileOutcome.ok z x y ∧
        z ≤ maxZoom ∧ x < 2 ^ z ∧ y < 2 ^ z) ∧
    (∀ (segs : List (List Char)) (ds : Nat),
      validateTile segs = TileOutcome.invalidRequest → tileStatus segs ds = 400) ∧
    tileStatus [("20".data), ("0".data), ("0.png".data)] 200 = 400 ∧
    tileStatus [("-1".data), ("0".data), ("0.png".data)] 200 = 400 := by
  have hval : ∀ (segs : List (List Char)) (z x y : Nat),
      validateTile segs = TileOutcome.ok z x y →
      z ≤ maxZoom ∧ x < 2 ^ z ∧ y < 2 ^ z := by
    intro segs z x y h
    unfold validateTile at h
    cases hp : parseTile segs with
    | none =>
      rw [hp] at h
      have h' : TileOutcome.invalidRequest = TileOutcome.ok z x y := h
      exact absurd h' (by simp)
    | some t =>
      obtain ⟨zi, xi, yi⟩ := t
      rw [hp] at h
      have h' : (if 0 ≤ zi ∧ zi ≤ (maxZoom : Int) ∧
          0 ≤ xi ∧ xi < ((2 ^ zi.toNat : Nat) : Int) ∧
          0 ≤ yi ∧ yi < ((2 ^ zi.toNat : Nat) : Int) then
          TileOutcome.ok zi.toNat xi.toNat yi.toNat
          else TileOutcome.invalidRequest) = TileOutcome.ok z x y := h
      by_cases hc : 0 ≤ zi ∧ zi ≤ (maxZoom : Int) ∧
          0 ≤ xi ∧ xi < ((2 ^ zi.toNat : Nat) : Int) ∧
          0 ≤ yi ∧ yi < ((2 ^ zi.toNat : Nat) : Int)
      · rw [if_pos hc] at h'
        obtain ⟨hz0, hz19, hx0, hxlt, hy0, hylt⟩ := hc
        cases h'
        refine ⟨?_, ?_, ?_⟩
        · show zi.toNat ≤ maxZoom
          unfold maxZoom at hz19 ⊢
          omega
        · show xi.toNat < 2 ^ zi.toNat
          omega
        · show yi.toNat < 2 ^ zi.toNat
          omega
      · rw [if_neg hc] at h'
        exact absurd h' (by simp)
  refine ⟨hval, ?_, ?_, by decide, by decide⟩
  · intro segs ds h
    unfold tileStatus at h
    cases hv : validateTile segs with
    | invalidRequest =>
      rw [hv] at h
      have h' : (400 : Nat) = 200 := h
      omega
    | ok z x y =>
      rw [hv] at h
      have h' : ds = 200 := h
      exact ⟨h', z, x, y, rfl, hval segs z x y hv⟩
  · intro segs ds h
    unfold tileStatus
    rw [h]

/-- Concrete instance of `tile_request_validation`: the valid request
`/tiles/1/0/1.png` and the invalid zoom `/tiles/20/0/0.png`. -/
theorem tile_request_validation_witness :
    (1 ≤ maxZoom ∧ 0 < 2 ^ 1 ∧ 1 < 2 ^ 1) ∧
    tileStatus [("20".data), ("0".data), ("0.png".data)] 200 = 400 := by
  constructor
  · exact tile_request_validation.1 [("1".data), ("0".data), ("1.png".data)] 1 0 1 (by decide)
  · exact tile_request_validation.2.2.1 [("20".data), ("0".data), ("0.png".data)] 200 (by decide)

/-! ## PNG-signature validation on the tile fetch path (spec-modelled)

The fetch path is device-resident and not among the reviewed files; it is
modelled from the specification's words (section 4.3): fetched bytes are
served and cached only when their first 8 bytes are the PNG signature. -/

/-- Result of an upstream fetch. -/
inductive FetchResult where
  | ok (bytes : List Nat)
  | unavailable
  deriving DecidableEq, Repr

/-- Client-visible outcome of a tile request. -/
inductive ServeOutcome where
  | served (bytes : List Nat)
  | upstreamUnavailable
  deriving DecidableEq, Repr

/-- The 8-byte PNG signature `89 50 4E 47 0D 0A 1A 0A`. -/
def pngSig : List Nat := [137, 80, 78, 71, 13, 10, 26, 10]

/-- `get(key)` on the store. -/
def getStore (key : List Nat) (s : List CEntry) : Option (List Nat) :=
  (s.find? (fun e => decide (e.key = key))).map CEntry.bytes

/-- Modelled from the spec: the miss-path — validate the fetched payload's PNG
signature; an invalid signature fails the request as `UpstreamUnavailable`
without touching the store, a valid payload is `put` and then served. -/
def fetchPath (cfg : StoreCfg) (now : Nat) (key : List Nat) (f : FetchResult)
    (s : List CEntry) : ServeOutcome × List CEntry :=
  match f with
  | FetchResult.unavailable => (ServeOutcome.upstreamUnavailable, s)
  | FetchResult.ok bytes =>
    if bytes.take 8 = pngSig then
      (ServeOutcome.served bytes, putStore cfg now key bytes s)
    else (ServeOutcome.upstreamUnavailable, s)

/-- Modelled from the spec: serve a tile — from the store on a hit, through
the validated fetch path on a miss. -/
def serveTile (cfg : StoreCfg) (now : Nat) (key : List Nat) (f : FetchResult)
    (s : List CEntry) : ServeOutcome × List CEntry :=
  match getStore key s with
  | some b => (ServeOutcome.served b, s)
  | none => fetchPath cfg now key f s

/-- Every cached entry starts with the PNG signature. -/
def sigInv (s : List CEntry) : Prop := ∀ e ∈ s, e.bytes.take 8 = pngSig

theorem putStore_mem (cfg : StoreCfg) (now : Nat) (key bytes : List Nat)
    (s : List CEntry) {x : CEntry} (h : x ∈ putStore cfg now key bytes s) :
    x ∈ s ∨ x = CEntry.mk key bytes now := by
  have hb := evictLoop_subset cfg _ h
  rcases List.mem_append.mp hb with h1 | h2
  · exact Or.inl (List.mem_of_mem_filter h1)
  · exact Or.inr (List.mem_singleton.mp h2)

/-- C6: a fetched payload with a bad first-8-bytes signature is surfaced as
`UpstreamUnavailable` and never written to the store; every body served with
200 starts with the PNG signature, and serving preserves the all-entries-valid
store invariant. -/
theorem tile_png_signature :
    (∀ (cfg : StoreCfg) (now : Nat) (key bytes : List Nat) (s : List CEntry),
      getStore key s = none → bytes.take 8 ≠ pngSig →
      serveTile cfg now key (FetchResult.ok bytes) s =
        (ServeOutcome.upstreamUnavailable, s)) ∧
    (∀ (cfg : StoreCfg) (now : Nat) (key : List Nat) (f : FetchResult)
      (s : List CEntry) (b : List Nat) (s' : List CEntry),
      sigInv s → serveTile cfg now key f s = (ServeOutcome.served b, s') →
      b.take 8 = pngSig ∧ sigInv s') := by
  constructor
  · intro cfg now key bytes s hmiss hbad
    have h1 : serveTile cfg now key (FetchResult.ok bytes) s =
        fetchPath cfg now key (FetchResult.ok bytes) s := by
      unfold serveTile
      rw [hmiss]
    rw [h1]
    show (if bytes.take 8 = pngSig then
        (ServeOutcome.served bytes, putStore cfg now key bytes s)
      else (ServeOutcome.upstreamUnavailable, s)) = (ServeOutcome.upstreamUnavailable, s)
    rw [if_neg hbad]
  · intro cfg now key f s b s' hinv h
    unfold serveTile at h
    cases hg : getStore key s with
    | some bb =>
      rw [hg] at h
      have h' : (ServeOutcome.served bb, s) = (ServeOutcome.served b, s') := h
      injection h' with hb hs
      injection hb with hbb
      obtain ⟨e, he, hbytes⟩ : ∃ e ∈ s, e.bytes = bb := by
        unfold getStore at hg
        cases hf : s.find? (fun e => decide (e.key = key)) with
        | some e =>
          rw [hf] at hg
          have hg' : some e.bytes = some bb := hg
          exact ⟨e, List.mem_of_find?_eq_some hf, Option.some.inj hg'⟩
        | none =>
          rw [hf] at hg
          have hg' : (none : Option (List Nat)) = some bb := hg
          exact absurd hg' (by simp)
      subst hs
      exact ⟨hbb ▸ hbytes ▸ hinv e he, hinv⟩
    | none =>
      rw [hg] at h
      cases f with
      | unavailable =>
        have h' : (ServeOutcome.upstreamUnavailable, s) = (ServeOutcome.served b, s') := h
        exact absurd h' (by simp)
      | ok bytes =>
        have h' : (if bytes.take 8 = pngSig then
            (ServeOutcome.served bytes, putStore cfg now key bytes s)
          else (ServeOutcome.upstreamUnavailable, s)) = (ServeOutcome.served b, s') := h
        by_cases hsig : bytes.take 8 = pngSig
        · rw [if_pos hsig] at h'
          injection h' with hb hs
          injection hb with hbytes
          subst hbytes
          refine ⟨hsig, ?_⟩
          intro e he
          rw [← hs] at he
          rcases putStore_mem cfg now key bytes s he with h1 | h2
          · exact hinv e h1
          · rw [h2]
            exact hsig
        · rw [if_neg hsig] at h'
          exact absurd h' (by simp)

/-- Concrete instance of `tile_png_signature`: a junk payload is rejected on
the empty store; the signature itself is served and cached from a miss. -/
theorem tile_png_signature_witness :
    serveTile (StoreCfg.mk 100 none) 0 [5] (FetchResult.ok [0, 1, 2]) [] =
      (ServeOutcome.upstreamUnavailable, []) ∧
    pngSig.take 8 = pngSig ∧
    sigInv (putStore (StoreCfg.mk 100 none) 0 [5] pngSig []) := by
  refine ⟨?_, ?_⟩
  · exact tile_png_signature.1 (StoreCfg.mk 100 none) 0 [5] [0, 1, 2] [] rfl (by decide)
  · exact tile_png_signature.2 (StoreCfg.mk 100 none) 0 [5] (FetchResult.ok pngSig) []
      pngSig (putStore (StoreCfg.mk 100 none) 0 [5] pngSig [])
      (fun e he => absurd he (List.not_mem_nil e)) rfl

/-! ## UpdateMirrorService release-metadata snapshot (spec-modelled)

The service is device-resident and not among the reviewed files; modelled from
the specification's words (sections 3 and 4.4): a process-wide
`ReleaseMetadata` snapshot, replaced atomically by the background refresh and
read verbatim — with no upstream call — by `GET /api/updates/latest`. -/

/-- The `status` variant of `ReleaseMetadata`. -/
inductive UpdStatus where
  | available
  | noUpdatesCached
  | unknown
  deriving DecidableEq, Repr

/-- A release `Asset`. -/
structure Asset where
  type : List Nat
  filename : List Nat
  url : List Nat
  sizeBytes : Option Nat
  deriving DecidableEq, Repr

/-- The client-visible `ReleaseMetadata` snapshot. -/
structure ReleaseMetadata where
  status : UpdStatus
  version : List Nat
  assets : List Asset
  deriving DecidableEq, Repr

/-- A release as fetched from the upstream release host. -/
structure FetchedRelease where
  version : List Nat
  assets : List Asset
  deriving DecidableEq, Repr

/-- The snapshot before any successful refresh: nothing cached. -/
def initialSnapshot : ReleaseMetadata :=
  ReleaseMetadata.mk UpdStatus.noUpdatesCached [] []

/-- Modelled from the spec: one background refresh — on fetch failure the
previous snapshot is retained; on success the snapshot is replaced, with
`available` status exactly when the fetched release carries assets (the spec's
invariant `status == available ⇒ assets non-empty`). -/
def refreshSnapshot (cur : ReleaseMetadata) (fetch : Option FetchedRelease) :
    ReleaseMetadata :=
  match fetch with
  | none => cur
  | some r =>
    if r.assets.isEmpty then ReleaseMetadata.mk UpdStatus.noUpdatesCached r.version []
    else ReleaseMetadata.mk UpdStatus.available r.version r.assets

/-- Process-wide update-mirror state: the snapshot and an upstream-call
counter. -/
structure UpdState where
  snapshot : ReleaseMetadata
  upstreamCalls : Nat
  deriving DecidableEq, Repr

/-- One background-refresh round: an upstream call plus a snapshot replace. -/
def applyRefresh (s : UpdState) (fetch : Option FetchedRelease) : UpdState :=
  UpdState.mk (refreshSnapshot s.snapshot fetch) (s.upstreamCalls + 1)

/-- The state after a sequence of background refreshes from boot. -/
def runUpdates (fetches : List (Option FetchedRelease)) : UpdState :=
  fetches.foldl applyRefresh (UpdState.mk initialSnapshot 0)

/-- Modelled from the spec: `GET /api/updates/latest` — return the current
snapshot verbatim; the state (in particular `upstreamCalls`) is untouched. -/
def getLatest (s : UpdState) : ReleaseMetadata × UpdState := (s.snapshot, s)

theorem refreshSnapshot_invariant (cur : ReleaseMetadata) (fetch : Option FetchedRelease)
    (hcur : cur.status = UpdStatus.available → cur.assets ≠ []) :
    (refreshSnapshot cur fetch).status = UpdStatus.available →
    (refreshSnapshot cur fetch).assets ≠ [] := by
  intro h
  match fetch with
  | none => exact hcur h
  | some r =>
    have h' : (if r.assets.isEmpty = true then
        ReleaseMetadata.mk UpdStatus.noUpdatesCached r.version []
        else ReleaseMetadata.mk UpdStatus.available r.version r.assets).status =
        UpdStatus.available := h
    show (if r.assets.isEmpty = true then
        ReleaseMetadata.mk UpdStatus.noUpdatesCached r.version []
        else ReleaseMetadata.mk UpdStatus.available r.version r.assets).assets ≠ []
    by_cases he : r.assets.isEmpty = true
    · rw [if_pos he] at h'
      exact absurd h' (by simp)
    · rw [if_neg he] at h' ⊢
      show r.assets ≠ []
      intro h0
      rw [h0] at he
      exact he rfl

/-- C7: after any sequence of background refreshes, an `available` snapshot
carries a non-empty asset list, the initial snapshot reports
`no_updates_cached`, and `GET /api/updates/latest` serves the snapshot with its
status verbatim while leaving the state — including the upstream-call
counter — untouched. -/
theorem updates_latest_snapshot :
    (∀ (fetches : List (Option FetchedRelease)),
      (runUpdates fetches).snapshot.status = UpdStatus.available →
      (runUpdates fetches).snapshot.assets ≠ []) ∧
    (runUpdates []).snapshot.status = UpdStatus.noUpdatesCached ∧
    (∀ (s : UpdState),
      (getLatest s).1 = s.snapshot ∧
      (getLatest s).1.status = s.snapshot.status ∧
      (getLatest s).2.upstreamCalls = s.upstreamCalls) := by
  refine ⟨?_, rfl, fun s => ⟨rfl, rfl, rfl⟩⟩
  have haux : ∀ (fetches : List (Option FetchedRelease)) (s0 : UpdState),
      (s0.snapshot.status = UpdStatus.available → s0.snapshot.assets ≠ []) →
      ((fetches.foldl applyRefresh s0).snapshot.status = UpdStatus.available →
        (fetches.foldl applyRefresh s0).snapshot.assets ≠ []) := by
    intro fetches
    induction fetches with
    | nil => intro s0 h0; exact h0
    | cons f fs ih =>
      intro s0 h0
      rw [List.foldl_cons]
      exact ih (applyRefresh s0 f) (refreshSnapshot_invariant s0.snapshot f h0)
  intro fetches
  exact haux fetches (UpdState.mk initialSnapshot 0) (by intro h; exact absurd h (by simp [initialSnapshot]))

/-- Concrete instance of `updates_latest_snapshot`: one refresh that fetched a
release with one asset yields a non-empty `available` snapshot. -/
theorem updates_latest_snapshot_witness :
    (runUpdates [some (FetchedRelease.mk [1]
        [Asset.mk [0] [1] [2] none])]).snapshot.assets ≠ [] :=
  updates_latest_snapshot.1 [some (FetchedRelease.mk [1] [Asset.mk [0] [1] [2] none])]
    (by decide)

/-! ## Fetch coalescing (spec-modelled)

The request handler is device-resident and not among the reviewed files;
modelled from the specification's words (sections 4.3 and 5): per missing key,
a first request at a miss starts the single upstream fetch; requests arriving
while that fetch is in flight join its waiter list instead of issuing another
call; completion hands every waiter the same result. -/

/-- Per-key coalescing state: the cached bytes (if any), the waiter list of an
in-flight fetch (if any), an upstream-call counter, and the delivery log of
`(client, outcome)` pairs. -/
structure CoalesceState where
  cached : Option (List Nat)
  inflight : Option (List Nat)
  upstreamCalls : Nat
  delivered : List (Nat × ServeOutcome)
  deriving DecidableEq, Repr

/-- A request arriving for the key, or the in-flight fetch completing. -/
inductive TileEvent where
  | arrive (client : Nat)
  | complete (r : FetchResult)
  deriving DecidableEq, Repr

/-- The outcome every waiter receives when the shared fetch completes. -/
def outcomeOf : FetchResult → ServeOutcome
  | FetchResult.ok b => ServeOutcome.served b
  | FetchResult.unavailable => ServeOutcome.upstreamUnavailable

/-- Modelled from the spec: one step of the per-key coalescing discipline. -/
def stepCoalesce (s : CoalesceState) : TileEvent → CoalesceState
  | TileEvent.arrive c =>
    match s.cached with
    | some b => { s with delivered := (c, ServeOutcome.served b) :: s.delivered }
    | none =>
      match s.inflight with
      | some ws => { s with inflight := some (c :: ws) }
      | none => { s with inflight := some [c], upstreamCalls := s.upstreamCalls + 1 }
  | TileEvent.complete r =>
    match s.inflight with
    | none => s
    | some ws =>
      match r with
      | FetchResult.ok b =>
        { s with inflight := none, cached := some b,
                 delivered := ws.map (fun c => (c, ServeOutcome.served b)) ++ s.delivered }
      | FetchResult.unavailable =>
        { s with inflight := none,
                 delivered :=
                   ws.map (fun c => (c, ServeOutcome.upstreamUnavailable)) ++ s.delivered }

/-- C3: a request arriving while a fetch for its key is in flight joins the
waiter list and issues no upstream call; the upstream-call counter moves only
when a request arrives at a miss with no fetch in flight, and then by exactly
one; and on completion every waiter is delivered the one result of the shared
fetch. -/
theorem fetch_coalescing :
    (∀ (s : CoalesceState) (c : Nat) (ws : List Nat),
      s.cached = none → s.inflight = some ws →
      stepCoalesce s (TileEvent.arrive c) =
        { s with inflight := some (c :: ws) } ∧
      (stepCoalesce s (TileEvent.arrive c)).upstreamCalls = s.upstreamCalls) ∧
    (∀ (s : CoalesceState) (e : TileEvent),
      (stepCoalesce s e).upstreamCalls ≠ s.upstreamCalls →
      ∃ c, e = TileEvent.arrive c ∧ s.cached = none ∧ s.inflight = none ∧
        (stepCoalesce s e).upstreamCalls = s.upstreamCalls + 1) ∧
    (∀ (s : CoalesceState) (ws : List Nat) (r : FetchResult) (c : Nat),
      s.inflight = some ws → c ∈ ws →
      (c, outcomeOf r) ∈ (stepCoalesce s (TileEvent.complete r)).delivered) := by
  refine ⟨?_, ?_, ?_⟩
  · intro s c ws hc hw
    constructor
    · unfold stepCoalesce
      rw [hc, hw]
    · unfold stepCoalesce
      rw [hc, hw]
  · intro s e h
    match e with
    | TileEvent.arrive c =>
      refine ⟨c, rfl, ?_⟩
      unfold stepCoalesce at h
      cases hc : s.cached with
      | some b =>
        rw [hc] at h
        exact absurd rfl h
      | none =>
        rw [hc] at h
        cases hw : s.inflight with
        | some ws =>
          rw [hw] at h
          exact absurd rfl h
        | none =>
          rw [hw] at h
          refine ⟨rfl, rfl, ?_⟩
          unfold stepCoalesce
          rw [hc, hw]
    | TileEvent.complete r =>
      unfold stepCoalesce at h
      cases hw : s.inflight with
      | none =>
        rw [hw] at h
        exact absurd rfl h
      | some ws =>
        rw [hw] at h
        match r with
        | FetchResult.ok b => exact absurd rfl h
        | FetchResult.unavailable => exact absurd rfl h
  · intro s ws r c hw hc
    unfold stepCoalesce
    rw [hw]
    match r with
    | FetchResult.ok b =>
      show (c, outcomeOf (FetchResult.ok b)) ∈
        ws.map (fun c => (c, ServeOutcome.served b)) ++ s.delivered
      exact List.mem_append_left _ (List.mem_map.mpr ⟨c, hc, rfl⟩)
    | FetchResult.unavailable =>
      show (c, outcomeOf FetchResult.unavailable) ∈
        ws.map (fun c => (c, ServeOutcome.upstreamUnavailable)) ++ s.delivered
      exact List.mem_append_left _ (List.mem_map.mpr ⟨c, hc, rfl⟩)

/-- Concrete instance of `fetch_coalescing`: client 2 joins client 1's
in-flight fetch without a second upstream call, and both receive the completed
result. -/
theorem fetch_coalescing_witness :
    (stepCoalesce (CoalesceState.mk none (some [1]) 1 []) (TileEvent.arrive 2)).upstreamCalls = 1 ∧
    (2, outcomeOf (FetchResult.ok [9])) ∈
      (stepCoalesce (CoalesceState.mk none (some [2, 1]) 1 [])
        (TileEvent.complete (FetchResult.ok [9]))).delivered := by
  constructor
  · exact (fetch_coalescing.1 (CoalesceState.mk none (some [1]) 1 []) 2 [1] rfl rfl).2
  · exact fetch_coalescing.2.2 (CoalesceState.mk none (some [2, 1]) 1 [])
      [2, 1] (FetchResult.ok [9]) 2 rfl (by decide)

end Geogram
